import Mathlib

/-!
# Verification of the vueflet-map-app routing core

Shallow embedding of the client-side routing/waypoint state machine of the
`vueflet-map-app` repository:

* the waypoint store and routing orchestrator
  (`src/modules/map/stores/routing.store.ts`),
* the OSRM route normalizer (`src/modules/map/services/routing.service.ts`,
  the variant with alternatives, mode-dependent durations and
  `recalculateRouteTimes`),
* the ranked route view (`allRoutes` in
  `src/modules/map-controls/composables/useFormattedRoute.ts` /
  `RouteAlternatives.vue`),
* the zoom resolver (`getZoomByAddressType` in
  `src/modules/map-controls/composables/useSearchResults.ts`).

JavaScript numbers are modelled as `Rat` (no floating point rounding: all the
arithmetic under scrutiny is exact at the magnitudes involved), `Math.round`
as `⌊x + 1/2⌋`, JavaScript's falsy-defaulting `a || b` by explicit helpers,
`crypto.randomUUID()` by a fresh-id counter threaded through the state,
`new Date()` by an explicit `now` parameter, and the stable `Array.prototype.sort`
by `List.insertionSort` (stable for the ascending comparators used here).
-/

namespace VuefletMap

/-- Travel mode (`TravelMode` in `routing.interfaces`). -/
inductive TravelMode where
  | driving
  | cycling
  | walking
deriving DecidableEq

/-- Waypoint role tag (`type` field: `"origin" | "waypoint" | "destination"`). -/
inductive WaypointType where
  | origin
  | waypoint
  | destination
deriving DecidableEq

/-- `Waypoint` of `routing.interfaces`: id (opaque token, modelled as `Nat`),
name, `[lat, lng]` coordinates, role tag, `order`, optional Nominatim place id. -/
structure Waypoint where
  id : Nat
  name : String
  coordinates : Rat × Rat
  type : WaypointType
  order : Int
  placeId : Option Nat
deriving DecidableEq

/-- Error codes of the routing taxonomy (`RoutingError.code`). -/
inductive RoutingErrorCode where
  | INVALID_WAYPOINTS
  | NO_ROUTE
  | NETWORK_ERROR
  | API_ERROR
deriving DecidableEq

/-- `RoutingError` (the `details: any` payload is not modelled; no claim
inspects it). -/
structure RoutingError where
  code : RoutingErrorCode
  message : String
deriving DecidableEq

/-- `RouteSegment`: one flattened OSRM step. -/
structure RouteSegment where
  distance : Rat
  duration : Rat
  instruction : String
  coordinates : List (Rat × Rat)
  index : Nat
deriving DecidableEq

/-- `Route` as produced by the normalizer with alternatives: distance/duration,
flattened segments, full geometry, mode, creation time, source waypoints, the
snapshotted native OSRM timings, the provider rank and the selection flag. -/
structure Route where
  id : Nat
  distance : Rat
  duration : Rat
  segments : List RouteSegment
  geometry : List (Rat × Rat)
  travelMode : TravelMode
  calculatedAt : Nat
  waypoints : List Waypoint
  osrmDuration : Option Rat
  osrmSegmentDurations : Option (List Rat)
  alternativeIndex : Nat
  isSelected : Bool
deriving DecidableEq

/-! ## OSRM provider response shapes (`routing.service.ts`, internal interfaces) -/

/-- `OSRMStep`: distance, duration, geometry (in the provider's lon,lat order),
street name and maneuver type. -/
structure OSRMStep where
  distance : Rat
  duration : Rat
  geometry : List (Rat × Rat)
  name : String
  maneuverType : String
deriving DecidableEq

/-- `OSRMLeg`. -/
structure OSRMLeg where
  distance : Rat
  duration : Rat
  steps : List OSRMStep
deriving DecidableEq

/-- `OSRMRoute`. -/
structure OSRMRoute where
  distance : Rat
  duration : Rat
  legs : List OSRMLeg
  geometry : List (Rat × Rat)
deriving DecidableEq

/-! ## Small JavaScript semantics helpers -/

/-- JavaScript `Math.round` on a non-negative number: round half up. -/
def jsRound (x : Rat) : Int := Int.floor (x + 1/2)

/-- JavaScript `a || b` for `a : number | undefined`: `b` when `a` is absent
or `0` (the only falsy number arising here). -/
def jsOrRat : Option Rat → Rat → Rat
  | none, b => b
  | some a, b => if a = 0 then b else a

/-- JavaScript `a || b` for `a : number | undefined` over naturals. -/
def jsOrNat : Option Nat → Nat → Nat
  | none, b => b
  | some a, b => if a = 0 then b else a

/-- JavaScript `xs?.[i]`: `undefined` when the array is absent or the index is
out of bounds. -/
def optIndex (l : Option (List Rat)) (i : Nat) : Option Rat :=
  match l with
  | none => none
  | some xs => xs[i]?

/-- `array.map((x, i) => f i x)` starting at index `n`. -/
def mapIdxFrom (f : Nat → α → β) : Nat → List α → List β
  | _, [] => []
  | n, a :: as => f n a :: mapIdxFrom f (n + 1) as

/-- `Math.max(...)` over the orders with JavaScript left-to-right folding;
only used on non-empty lists. -/
def listMaxInt (x : Int) (xs : List Int) : Int := xs.foldl max x

/-- `Math.min(...)`; only used on non-empty lists (the empty case never
arises, a junk value of `0` stands in for `Infinity`). -/
def listMinRat : List Rat → Rat
  | [] => 0
  | x :: xs => xs.foldl min x

/-! ## Routing service (`routing.service.ts`) -/

/-- `AVERAGE_SPEEDS` (km/h). The `driving` entry is `0` and unused: both call
sites of `calculateDuration` are guarded by `travelMode !== "driving"`. -/
def AVERAGE_SPEEDS : TravelMode → Rat
  | .driving => 0
  | .cycling => 15
  | .walking => 5

/-- `calculateDuration`: `(distanceKm / speedKmh) * 3600`, `Math.round`ed. -/
def calculateDuration (distanceMeters : Rat) (travelMode : TravelMode) : Rat :=
  let distanceKm := distanceMeters / 1000
  let speedKmh := AVERAGE_SPEEDS travelMode
  let durationHours := distanceKm / speedKmh
  let durationSeconds := durationHours * 3600
  (jsRound durationSeconds : Rat)

/-- `convertCoordinates`: OSRM `[lon, lat]` to Leaflet `[lat, lon]`. -/
def convertCoordinates (coords : List (Rat × Rat)) : List (Rat × Rat) :=
  coords.map (fun coord => (coord.2, coord.1))

/-- `buildInstruction`: Spanish instruction text from the maneuver type. -/
def buildInstruction (step : OSRMStep) : String :=
  let streetName := if step.name = "" then "la carretera" else step.name
  match step.maneuverType with
  | "depart" => "Sal hacia " ++ streetName
  | "arrive" => "Llegarás a tu destino"
  | "turn" => "Gira en " ++ streetName
  | "new name" => "Continúa por " ++ streetName
  | "continue" => "Continúa por " ++ streetName
  | "merge" => "Incorpórate a " ++ streetName
  | "on ramp" => "Toma la rampa hacia " ++ streetName
  | "off ramp" => "Sal por la rampa hacia " ++ streetName
  | "fork" => "En la bifurcación, toma " ++ streetName
  | "roundabout" => "En la rotonda, toma " ++ streetName
  | "rotary" => "En la rotonda, toma " ++ streetName
  | _ => "Continúa por " ++ streetName

/-- One flattened segment of `transformOSRMRoute`: for cycling and walking the
duration is re-derived from the step distance, for driving the OSRM step
duration is kept. -/
def mkSegment (travelMode : TravelMode) (i : Nat) (step : OSRMStep) : RouteSegment :=
  { distance := step.distance
    duration := if travelMode = .driving then step.duration
                else calculateDuration step.distance travelMode
    instruction := buildInstruction step
    coordinates := convertCoordinates step.geometry
    index := i }

/-- `transformOSRMRoute` (the alternatives-aware variant): flattens the legs
into indexed segments, converts the geometry, applies the duration policy, and
snapshots the native OSRM timings into `osrmDuration` / `osrmSegmentDurations`.
`crypto.randomUUID()` and `new Date()` are passed in as `id` and `now`. -/
def transformOSRMRoute (osrmRoute : OSRMRoute) (waypoints : List Waypoint)
    (travelMode : TravelMode) (alternativeIndex : Nat) (id : Nat) (now : Nat) : Route :=
  let segments := mapIdxFrom (mkSegment travelMode) 0 (osrmRoute.legs.flatMap (·.steps))
  let geometry := convertCoordinates osrmRoute.geometry
  let totalDuration := if travelMode = .driving then osrmRoute.duration
                       else calculateDuration osrmRoute.distance travelMode
  let osrmSegmentDurations := osrmRoute.legs.flatMap (fun leg => leg.steps.map (·.duration))
  { id := id
    distance := osrmRoute.distance
    duration := totalDuration
    segments := segments
    geometry := geometry
    travelMode := travelMode
    calculatedAt := now
    waypoints := waypoints
    osrmDuration := some osrmRoute.duration
    osrmSegmentDurations := some osrmSegmentDurations
    alternativeIndex := alternativeIndex
    isSelected := alternativeIndex = 0 }

/-- `recalculateRouteTimes`: retimes a route for a new mode without any
network interaction. Same mode: the input route is returned as is. To
`driving`: the snapshotted OSRM timings are restored through the `||`
fallback. To `cycling`/`walking`: durations are re-derived from distances. -/
def recalculateRouteTimes (route : Route) (newTravelMode : TravelMode) (now : Nat) : Route :=
  if route.travelMode = newTravelMode then route
  else
    let totalDuration :=
      if newTravelMode = .driving then jsOrRat route.osrmDuration route.duration
      else calculateDuration route.distance newTravelMode
    let updatedSegments :=
      if newTravelMode = .driving then
        mapIdxFrom
          (fun index segment =>
            { segment with
                duration := jsOrRat (optIndex route.osrmSegmentDurations index) segment.duration })
          0 route.segments
      else
        route.segments.map
          (fun segment =>
            { segment with duration := calculateDuration segment.distance newTravelMode })
    { route with
        segments := updatedSegments
        duration := totalDuration
        travelMode := newTravelMode
        calculatedAt := now }

/-! ## Routing store (`routing.store.ts`) -/

/-- Outcome of the one `routingService.getRoute` call inside `calculateRoute`:
a route, a thrown typed `RoutingError`, or an unexpected (non-typed) throw. -/
inductive ProviderOutcome where
  | success (route : Route)
  | failure (e : RoutingError)
  | crash
deriving DecidableEq

/-- The routing store state. `nextId` models the `crypto.randomUUID()`
source of fresh waypoint ids. -/
structure RoutingState where
  waypoints : List Waypoint
  currentRoute : Option Route
  travelMode : TravelMode
  isCalculatingRoute : Bool
  routingError : Option RoutingError
  nextId : Nat
deriving DecidableEq

/-- The initial store state. -/
def initialState : RoutingState :=
  { waypoints := []
    currentRoute := none
    travelMode := .driving
    isCalculatingRoute := false
    routingError := none
    nextId := 0 }

/-- Comparator of the store's `sort((a, b) => a.order - b.order)` calls. -/
def wpLE (a b : Waypoint) : Prop := a.order ≤ b.order

instance : DecidableRel wpLE := fun a b => inferInstanceAs (Decidable (a.order ≤ b.order))

instance : IsTotal Waypoint wpLE := ⟨fun a b => le_total a.order b.order⟩

instance : IsTrans Waypoint wpLE := ⟨fun _ _ _ h h' => le_trans h h'⟩

/-- The store's stable ascending sort of the waypoint array by `order`. -/
def sortWaypoints (ws : List Waypoint) : List Waypoint := List.insertionSort wpLE ws

/-- Replace the first element satisfying `p` (the `findIndex` + splice-in-place
pattern of `updateWaypoint`). -/
def updateFirst (p : α → Bool) (f : α → α) : List α → List α
  | [] => []
  | x :: xs => if p x then f x :: xs else x :: updateFirst p f xs

/-- `updateWaypoint(id, updates)` specialised to a concrete field update `f`
(each call site passes a concrete partial object). -/
def updateWaypoint (ws : List Waypoint) (id : Nat) (f : Waypoint → Waypoint) : List Waypoint :=
  updateFirst (fun w => w.id = id) f ws

/-- Getter `originWaypoint`: first waypoint with role `origin`. -/
def originWaypoint (s : RoutingState) : Option Waypoint :=
  s.waypoints.find? (fun w => w.type = .origin)

/-- Getter `destinationWaypoint`. -/
def destinationWaypoint (s : RoutingState) : Option Waypoint :=
  s.waypoints.find? (fun w => w.type = .destination)

/-- Getter `canCalculateRoute`: origin and destination both present. -/
def canCalculateRoute (s : RoutingState) : Bool :=
  (originWaypoint s).isSome && (destinationWaypoint s).isSome

/-- `addWaypoint`: push then re-sort by `order`. -/
def addWaypoint (s : RoutingState) (w : Waypoint) : RoutingState :=
  { s with waypoints := sortWaypoints (s.waypoints ++ [w]) }

/-- `reorderWaypoints`: renumber `order` to the current array index. -/
def reorderWaypoints (ws : List Waypoint) : List Waypoint :=
  mapIdxFrom (fun index w => { w with order := (index : Int) }) 0 ws

/-- `removeWaypoint(id)`: filter out, then renumber. -/
def removeWaypoint (s : RoutingState) (id : Nat) : RoutingState :=
  { s with waypoints := reorderWaypoints (s.waypoints.filter (fun w => w.id ≠ id)) }

/-- `setOrigin(name, coordinates, placeId?)`. -/
def setOrigin (s : RoutingState) (name : String) (coordinates : Rat × Rat)
    (placeId : Option Nat) : RoutingState :=
  match originWaypoint s with
  | some existingOrigin =>
      { s with
          waypoints := updateWaypoint s.waypoints existingOrigin.id
            (fun w => { w with name := name, coordinates := coordinates, placeId := placeId }) }
  | none =>
      addWaypoint { s with nextId := s.nextId + 1 }
        { id := s.nextId
          name := name
          coordinates := coordinates
          type := .origin
          order := 0
          placeId := placeId }

/-- `setDestination(name, coordinates, placeId?)`: update in place, or create
with `order = maxOrder + 1` (`maxOrder = -1` on an empty store). -/
def setDestination (s : RoutingState) (name : String) (coordinates : Rat × Rat)
    (placeId : Option Nat) : RoutingState :=
  match destinationWaypoint s with
  | some existingDestination =>
      { s with
          waypoints := updateWaypoint s.waypoints existingDestination.id
            (fun w => { w with name := name, coordinates := coordinates, placeId := placeId }) }
  | none =>
      let maxOrder : Int :=
        match s.waypoints with
        | [] => -1
        | w :: ws => listMaxInt w.order (ws.map (·.order))
      addWaypoint { s with nextId := s.nextId + 1 }
        { id := s.nextId
          name := name
          coordinates := coordinates
          type := .destination
          order := maxOrder + 1
          placeId := placeId }

/-- `addIntermediateWaypoint(name, coordinates, placeId?)`: inserted at the
destination's current `order` (or at `waypoints.length` without one); the
destination's `order` is then incremented. -/
def addIntermediateWaypoint (s : RoutingState) (name : String) (coordinates : Rat × Rat)
    (placeId : Option Nat) : RoutingState :=
  let destination := destinationWaypoint s
  let order : Int :=
    match destination with
    | some d => d.order
    | none => (s.waypoints.length : Int)
  let s1 :=
    addWaypoint { s with nextId := s.nextId + 1 }
      { id := s.nextId
        name := name
        coordinates := coordinates
        type := .waypoint
        order := order
        placeId := placeId }
  match destination with
  | some d =>
      { s1 with waypoints := updateWaypoint s1.waypoints d.id (fun w => { w with order := order + 1 }) }
  | none => s1

/-- `swapOriginDestination`: no-op unless both roles exist; otherwise swap the
`type` tags, swap the `order` values (through the captured pre-update
objects), and re-sort. -/
def swapOriginDestination (s : RoutingState) : RoutingState :=
  match originWaypoint s, destinationWaypoint s with
  | some origin, some destination =>
      let ws1 := updateWaypoint s.waypoints origin.id (fun w => { w with type := .destination })
      let ws2 := updateWaypoint ws1 destination.id (fun w => { w with type := .origin })
      let tempOrder := origin.order
      let ws3 := updateWaypoint ws2 origin.id (fun w => { w with order := destination.order })
      let ws4 := updateWaypoint ws3 destination.id (fun w => { w with order := tempOrder })
      { s with waypoints := sortWaypoints ws4 }
  | _, _ => s

/-- `setTravelMode(mode)`: only stores the mode (the recalculation announced
in the source's TODO comment is absent, and `recalculateRouteTimes` has no
caller anywhere in the sources). -/
def setTravelMode (s : RoutingState) (mode : TravelMode) : RoutingState :=
  { s with travelMode := mode }

/-- `setRoute(route)`. -/
def setRoute (s : RoutingState) (route : Route) : RoutingState :=
  { s with currentRoute := some route, routingError := none }

/-- `setRoutingError(error)`. -/
def setRoutingError (s : RoutingState) (e : RoutingError) : RoutingState :=
  { s with routingError := some e, currentRoute := none }

/-- `clearRoutingError`. -/
def clearRoutingError (s : RoutingState) : RoutingState :=
  { s with routingError := none }

/-- `clearRoute`. -/
def clearRoute (s : RoutingState) : RoutingState :=
  { s with waypoints := [], currentRoute := none, routingError := none }

/-- `calculateRoute`: guard on `canCalculateRoute` (error `INVALID_WAYPOINTS`
and early return without touching the provider), otherwise set the loading
flag, clear the previous error, consult the provider (its outcome is the
explicit `outcome` parameter) and store the result; the `finally` block clears
the loading flag on every provider outcome. The returned `Bool` records
whether the provider was contacted. -/
def calculateRoute (s : RoutingState) (outcome : ProviderOutcome) : RoutingState × Bool :=
  if !(canCalculateRoute s) then
    (setRoutingError s
      { code := .INVALID_WAYPOINTS, message := "Necesitas al menos un origen y un destino" },
     false)
  else
    let s1 := clearRoutingError { s with isCalculatingRoute := true }
    match outcome with
    | .success route => ({ setRoute s1 route with isCalculatingRoute := false }, true)
    | .failure e => ({ setRoutingError s1 e with isCalculatingRoute := false }, true)
    | .crash =>
        ({ setRoutingError s1
             { code := .API_ERROR, message := "No se pudo calcular la ruta" } with
           isCalculatingRoute := false }, true)

/-! ## Route selection ledger -/

/-- Modelled from the spec: the routing store action `selectAlternativeRoute`
(the Route Selection Ledger's `selectByRank` of §4.3) is referenced by
`RouteAlternatives.vue`, `useFormattedRoute` and `Map.vue` but its
implementation is not among the sources. Per §4.3: a rank absent from the
batch is a no-op; a rank already selected is a no-op; otherwise the currently
selected candidate's `isSelected` is set to false and the candidate whose
rank matches is set to true — a pure boolean flip, never a reordering. -/
def selectByRank (batch : List Route) (rank : Nat) : List Route :=
  if batch.any (fun r => r.alternativeIndex = rank) then
    batch.map (fun r =>
      if r.alternativeIndex = rank then { r with isSelected := true }
      else if r.isSelected then { r with isSelected := false }
      else r)
  else batch

/-! ## Ranked route view (`allRoutes`) -/

/-- One entry of the `allRoutes` computed view: the underlying route, its
alternative index (`-1` for the primary), and the derived display info. -/
structure RouteView where
  route : Route
  index : Int
  isAlternative : Bool
  isFastest : Bool
  timeDiff : Rat
  distanceDiff : Rat
deriving DecidableEq

/-- Comparator of the view's `sort((a, b) => a.route.duration - b.route.duration)`. -/
def viewLE (a b : RouteView) : Prop := a.route.duration ≤ b.route.duration

instance : DecidableRel viewLE :=
  fun a b => inferInstanceAs (Decidable (a.route.duration ≤ b.route.duration))

instance : IsTotal RouteView viewLE := ⟨fun a b => le_total a.route.duration b.route.duration⟩

instance : IsTrans RouteView viewLE := ⟨fun _ _ _ h h' => le_trans h h'⟩

/-- The `routes.find(fr => fr.route.duration === fastestDuration)!` lookup:
the non-null assertion is modelled by defaulting to the head entry (the
search never fails on the non-empty lists it is applied to). -/
def findFastest (routes : List (Route × Int × Bool)) (fastestDuration : Rat)
    (dflt : Route × Int × Bool) : Route × Int × Bool :=
  (routes.find? (fun fr => fr.1.duration = fastestDuration)).getD dflt

/-- The `routes` array of `allRoutes`: the current route tagged `-1`,
followed by the alternatives tagged with their positional index. -/
def allRoutesEntries (cur : Route) (alternativeRoutes : List Route) :
    List (Route × Int × Bool) :=
  (cur, -1, false) :: mapIdxFrom (fun i r => (r, (i : Int), true)) 0 alternativeRoutes

/-- The `routesWithInfo` array of `allRoutes`: every entry annotated with
`isFastest` (duration equal to the batch minimum) and its time/distance deltas
against the first minimum-duration entry. -/
def allRoutesInfo (cur : Route) (alternativeRoutes : List Route) : List RouteView :=
  let routes := allRoutesEntries cur alternativeRoutes
  let fastestDuration := listMinRat (routes.map (·.1.duration))
  routes.map (fun r =>
    { route := r.1
      index := r.2.1
      isAlternative := r.2.2
      isFastest := r.1.duration = fastestDuration
      timeDiff := r.1.duration - fastestDuration
      distanceDiff := r.1.distance - (findFastest routes fastestDuration (cur, -1, false)).1.distance
      : RouteView })

/-- `allRoutes` (`useFormattedRoute.ts` / `RouteAlternatives.vue`): primary
plus alternatives, annotated (see `allRoutesInfo`) and sorted ascending by
duration. Returns `[]` without a current route. -/
def allRoutes (currentRoute : Option Route) (alternativeRoutes : List Route) : List RouteView :=
  match currentRoute with
  | none => []
  | some cur => List.insertionSort viewLE (allRoutesInfo cur alternativeRoutes)

/-! ## Zoom resolver (`useSearchResults.ts`) -/

/-- ASCII lowering of one character, as `String.prototype.toLowerCase`
behaves on the ASCII category keys involved. -/
def charToLower (c : Char) : Char :=
  if 65 ≤ c.toNat ∧ c.toNat ≤ 90 then Char.ofNat (c.toNat + 32) else c

/-- `addresstype.toLowerCase()` on ASCII strings. -/
def strToLower (s : String) : String := ⟨s.data.map charToLower⟩

/-- The `zoomLevels` lookup table of `getZoomByAddressType`. -/
def zoomLevels : List (String × Nat) :=
  [("country", 5), ("continent", 3),
   ("state", 7), ("region", 7), ("province", 8),
   ("city", 11), ("town", 12), ("village", 13), ("municipality", 12),
   ("neighbourhood", 14), ("suburb", 14), ("district", 13), ("quarter", 14),
   ("place", 18), ("amenity", 17), ("building", 18), ("house", 18),
   ("address", 18), ("road", 16), ("street", 16),
   ("poi", 17), ("shop", 18), ("restaurant", 18)]

/-- `getZoomByAddressType`: lowercase the category, look it up, default to 13
through the `|| 13` fallback. -/
def getZoomByAddressType (addresstype : String) : Nat :=
  jsOrNat (zoomLevels.lookup (strToLower addresstype)) 13

/-! ## Generic helper lemmas -/

theorem mapIdxFrom_length (f : Nat → α → β) : ∀ (n : Nat) (l : List α),
    (mapIdxFrom f n l).length = l.length
  | _, [] => rfl
  | n, _ :: as => by simp [mapIdxFrom, mapIdxFrom_length f (n + 1) as]

theorem map_mapIdxFrom (g : β → γ) (f : Nat → α → β) : ∀ (n : Nat) (l : List α),
    (mapIdxFrom f n l).map g = mapIdxFrom (fun i x => g (f i x)) n l
  | _, [] => rfl
  | n, _ :: as => by simp [mapIdxFrom, map_mapIdxFrom g f (n + 1) as]

theorem mapIdxFrom_eq_map (f : Nat → α → β) (h : α → β) (hf : ∀ i x, f i x = h x) :
    ∀ (n : Nat) (l : List α), mapIdxFrom f n l = l.map h
  | _, [] => rfl
  | n, a :: as => by simp [mapIdxFrom, hf n a, mapIdxFrom_eq_map f h hf (n + 1) as]

theorem lookup_mem_values {k : String} {v : Nat} :
    ∀ {ps : List (String × Nat)}, ps.lookup k = some v → v ∈ ps.map Prod.snd := by
  intro ps
  induction ps with
  | nil => intro h; simp [List.lookup] at h
  | cons p ps ih =>
      intro h
      obtain ⟨k', v'⟩ := p
      rw [List.lookup] at h
      split at h
      · injection h with h
        simp [← h]
      · simp [ih h]

/-! ## C9: the zoom resolver -/

theorem charToLower_toNat_of_upper {c : Char} (h : 65 ≤ c.toNat ∧ c.toNat ≤ 90) :
    (charToLower c).toNat = c.toNat + 32 := by
  have hv : (Char.ofNat (c.toNat + 32)).toNat = c.toNat + 32 := by
    have h1 : 97 ≤ c.toNat + 32 := by omega
    have h2 : c.toNat + 32 ≤ 122 := by omega
    set m := c.toNat + 32 with hm
    interval_cases m <;> decide
  simp [charToLower, h, hv]

theorem charToLower_fixed (d : Char) (hd : ¬ (65 ≤ d.toNat ∧ d.toNat ≤ 90)) :
    charToLower d = d := by
  simp [charToLower, hd]

theorem charToLower_idem (c : Char) : charToLower (charToLower c) = charToLower c := by
  by_cases h : 65 ≤ c.toNat ∧ c.toNat ≤ 90
  · have hv := charToLower_toNat_of_upper h
    exact charToLower_fixed _ (by omega)
  · rw [charToLower_fixed c h, charToLower_fixed c h]

theorem strToLower_idem (s : String) : strToLower (strToLower s) = strToLower s := by
  simp only [strToLower]
  congr 1
  show List.map charToLower (List.map charToLower s.data) = List.map charToLower s.data
  rw [List.map_map]
  exact List.map_congr_left (fun c _ => charToLower_idem c)

/-- C9: `getZoomByAddressType` is a pure total function into the integer zoom
range 3–18: `"country" ↦ 5`, `"BUILDING"`/`"building" ↦ 18` (case-insensitive),
`"continent" ↦ 3`, and every category missing from the (lowercased) table
resolves to the default 13. -/
theorem getZoomByAddressType_spec :
    (∀ s, 3 ≤ getZoomByAddressType s ∧ getZoomByAddressType s ≤ 18) ∧
    getZoomByAddressType "country" = 5 ∧
    getZoomByAddressType "BUILDING" = 18 ∧
    getZoomByAddressType "building" = 18 ∧
    getZoomByAddressType "continent" = 3 ∧
    getZoomByAddressType "unknown-category" = 13 ∧
    (∀ s, getZoomByAddressType s = getZoomByAddressType (strToLower s)) ∧
    (∀ s, zoomLevels.lookup (strToLower s) = none → getZoomByAddressType s = 13) := by
  refine ⟨?_, by decide, by decide, by decide, by decide, by decide, ?_, ?_⟩
  · intro s
    unfold getZoomByAddressType
    cases hl : zoomLevels.lookup (strToLower s) with
    | none => norm_num [jsOrNat]
    | some v =>
        have hv := lookup_mem_values hl
        have hall : ∀ x ∈ zoomLevels.map Prod.snd, 3 ≤ x ∧ x ≤ 18 := by decide
        have hb : 3 ≤ v ∧ v ≤ 18 := hall v hv
        have hnz : ¬ v = 0 := by omega
        simpa [jsOrNat, hnz] using hb
  · intro s
    unfold getZoomByAddressType
    rw [strToLower_idem]
  · intro s h
    unfold getZoomByAddressType
    rw [h]
    rfl

/-- Witness for the hypothesis-bearing parts of `getZoomByAddressType_spec`
at the concrete category `"Shopping-Mall"`, which is absent from the table. -/
theorem getZoomByAddressType_spec_witness :
    zoomLevels.lookup (strToLower "Shopping-Mall") = none ∧
    getZoomByAddressType "Shopping-Mall" = 13 := by
  have h : zoomLevels.lookup (strToLower "Shopping-Mall") = none := by decide
  exact ⟨h, getZoomByAddressType_spec.2.2.2.2.2.2.2 "Shopping-Mall" h⟩

/-! ## C7: the duration policy of the normalizer -/

/-- C7: normalizing a provider path for `cycling` (resp. `walking`) derives
the whole-route duration and each segment's duration independently as
`round((distanceMeters/1000)/speedKmh*3600)` with speed 15 (resp. 5) km/h,
while `driving` keeps the provider-supplied durations unchanged. -/
theorem transformOSRMRoute_duration_policy (osrm : OSRMRoute) (ws : List Waypoint)
    (k id now : Nat) :
    ((transformOSRMRoute osrm ws .cycling k id now).duration
        = ((jsRound (osrm.distance / 1000 / 15 * 3600) : Int) : Rat)) ∧
    ((transformOSRMRoute osrm ws .cycling k id now).segments.map (·.duration)
        = (osrm.legs.flatMap (·.steps)).map
            (fun st => ((jsRound (st.distance / 1000 / 15 * 3600) : Int) : Rat))) ∧
    ((transformOSRMRoute osrm ws .walking k id now).duration
        = ((jsRound (osrm.distance / 1000 / 5 * 3600) : Int) : Rat)) ∧
    ((transformOSRMRoute osrm ws .walking k id now).segments.map (·.duration)
        = (osrm.legs.flatMap (·.steps)).map
            (fun st => ((jsRound (st.distance / 1000 / 5 * 3600) : Int) : Rat))) ∧
    ((transformOSRMRoute osrm ws .driving k id now).duration = osrm.duration) ∧
    ((transformOSRMRoute osrm ws .driving k id now).segments.map (·.duration)
        = (osrm.legs.flatMap (·.steps)).map (·.duration)) := by
  refine ⟨rfl, ?_, rfl, ?_, rfl, ?_⟩ <;>
    · show (mapIdxFrom (mkSegment _) 0 (osrm.legs.flatMap (·.steps))).map (·.duration) = _
      rw [map_mapIdxFrom]
      apply mapIdxFrom_eq_map
      intro i st
      rfl

/-! ## C2: `setTravelMode` does not retime the existing batch -/

/-- A route as the normalizer produces it for a driving request whose OSRM
response reported 15 km of distance and 1000 s of car travel time. -/
def drivingDemoRoute : Route :=
  transformOSRMRoute
    { distance := 15000, duration := 1000, legs := [], geometry := [] }
    [] .driving 0 0 0

/-- C2 (failing behaviour): `setTravelMode` stores the new mode and leaves the
computed batch untouched — in particular, after switching to cycling the
batch's duration is still the native driving duration (1000 s) and not the
claimed `round(distanceMeters/1000/15*3600) = 3600 s`. No provider call can
occur: the function consults nothing but the store state. -/
theorem setTravelMode_no_retime :
    (∀ (s : RoutingState) (mode : TravelMode),
      (setTravelMode s mode).travelMode = mode ∧
      (setTravelMode s mode).currentRoute = s.currentRoute) ∧
    (setTravelMode { initialState with currentRoute := some drivingDemoRoute }
        .cycling).currentRoute = some drivingDemoRoute ∧
    drivingDemoRoute.duration = 1000 ∧
    ((jsRound (drivingDemoRoute.distance / 1000 / 15 * 3600) : Int) : Rat) = 3600 ∧
    (1000 : Rat) ≠ 3600 := by
  refine ⟨fun s mode => ⟨rfl, rfl⟩, rfl, rfl, ?_, by norm_num⟩
  show ((jsRound ((15000 : Rat) / 1000 / 15 * 3600) : Int) : Rat) = 3600
  norm_num [jsRound]

/-! ## C4: the `calculateRoute` guard and the loading flag -/

/-- C4: with the origin or the destination missing, `calculateRoute` records
the typed error `INVALID_WAYPOINTS`, does not contact the provider, leaves
`hasRoute` false (`currentRoute = none`) and does not touch the loading flag;
whenever the guard passes, the loading flag is false after every provider
outcome (success, typed failure, or unexpected throw). -/
theorem calculateRoute_spec (s : RoutingState) (outcome : ProviderOutcome) :
    ((originWaypoint s = none ∨ destinationWaypoint s = none) →
      (calculateRoute s outcome).2 = false ∧
      (calculateRoute s outcome).1.routingError.map (·.code) =
        some .INVALID_WAYPOINTS ∧
      (calculateRoute s outcome).1.currentRoute = none ∧
      (calculateRoute s outcome).1.isCalculatingRoute = s.isCalculatingRoute) ∧
    (canCalculateRoute s = true →
      (calculateRoute s outcome).2 = true ∧
      (calculateRoute s outcome).1.isCalculatingRoute = false) := by
  constructor
  · intro h
    have hguard : canCalculateRoute s = false := by
      rcases h with h | h <;> simp [canCalculateRoute, h]
    simp [calculateRoute, hguard, setRoutingError]
  · intro h
    cases outcome <;>
      simp [calculateRoute, h, setRoute, setRoutingError, clearRoutingError]

/-- A store state holding an origin and a destination (guard satisfied). -/
def twoWaypointState : RoutingState :=
  { initialState with
      waypoints :=
        [{ id := 0, name := "A", coordinates := (1, 1), type := .origin,
           order := 0, placeId := none },
         { id := 1, name := "B", coordinates := (2, 2), type := .destination,
           order := 1, placeId := none }] }

/-- Witness for `calculateRoute_spec`: the guard-failure conclusions at the
empty store, and the cleared loading flag at a guard-passing store for the
unexpected-throw outcome. -/
theorem calculateRoute_spec_witness :
    ((calculateRoute initialState .crash).2 = false ∧
      (calculateRoute initialState .crash).1.routingError.map (·.code) =
        some .INVALID_WAYPOINTS ∧
      (calculateRoute initialState .crash).1.currentRoute = none ∧
      (calculateRoute initialState .crash).1.isCalculatingRoute =
        initialState.isCalculatingRoute) ∧
    ((calculateRoute twoWaypointState .crash).2 = true ∧
      (calculateRoute twoWaypointState .crash).1.isCalculatingRoute = false) :=
  ⟨(calculateRoute_spec initialState .crash).1 (Or.inl rfl),
   (calculateRoute_spec twoWaypointState .crash).2 (by decide)⟩

/-! ## Characterizations of `recalculateRouteTimes` -/

theorem recalc_eq_same (route : Route) (mode : TravelMode) (now : Nat)
    (h : route.travelMode = mode) : recalculateRouteTimes route mode now = route := by
  simp [recalculateRouteTimes, h]

theorem recalc_eq_driving (route : Route) (now : Nat)
    (h : ¬ route.travelMode = .driving) :
    recalculateRouteTimes route .driving now =
      { route with
          segments := mapIdxFrom
            (fun index segment =>
              { segment with
                  duration := jsOrRat (optIndex route.osrmSegmentDurations index) segment.duration })
            0 route.segments
          duration := jsOrRat route.osrmDuration route.duration
          travelMode := .driving
          calculatedAt := now } := by
  simp [recalculateRouteTimes, h]

theorem recalc_eq_other (route : Route) (mode : TravelMode) (now : Nat)
    (h : ¬ route.travelMode = mode) (h2 : ¬ mode = .driving) :
    recalculateRouteTimes route mode now =
      { route with
          segments := route.segments.map
            (fun segment =>
              { segment with duration := calculateDuration segment.distance mode })
          duration := calculateDuration route.distance mode
          travelMode := mode
          calculatedAt := now } := by
  simp [recalculateRouteTimes, h, h2]

/-! ## C10: frame conditions of `recalculateRouteTimes` -/

/-- C10: `recalculateRouteTimes` preserves the route's id, distance, geometry,
waypoints, alternative rank, selection flag and native-duration snapshots, as
well as every segment's distance, instruction, coordinates and index; only the
durations, the travel mode and `calculatedAt` may change, and a request for
the route's current mode returns the input route unchanged. -/
theorem recalculateRouteTimes_frame (route : Route) (mode : TravelMode) (now : Nat) :
    (recalculateRouteTimes route mode now).id = route.id ∧
    (recalculateRouteTimes route mode now).distance = route.distance ∧
    (recalculateRouteTimes route mode now).geometry = route.geometry ∧
    (recalculateRouteTimes route mode now).waypoints = route.waypoints ∧
    (recalculateRouteTimes route mode now).alternativeIndex = route.alternativeIndex ∧
    (recalculateRouteTimes route mode now).isSelected = route.isSelected ∧
    (recalculateRouteTimes route mode now).osrmDuration = route.osrmDuration ∧
    (recalculateRouteTimes route mode now).osrmSegmentDurations =
      route.osrmSegmentDurations ∧
    (recalculateRouteTimes route mode now).segments.map
        (fun seg => (seg.distance, seg.instruction, seg.coordinates, seg.index)) =
      route.segments.map
        (fun seg => (seg.distance, seg.instruction, seg.coordinates, seg.index)) ∧
    (mode = route.travelMode → recalculateRouteTimes route mode now = route) := by
  by_cases hm : route.travelMode = mode
  · simp [recalc_eq_same route mode now hm]
  · have hm' : ¬ mode = route.travelMode := fun h => hm h.symm
    by_cases hd : mode = .driving
    · subst hd
      rw [recalc_eq_driving route now hm]
      refine ⟨rfl, rfl, rfl, rfl, rfl, rfl, rfl, rfl, ?_, fun h => absurd h hm'⟩
      show (mapIdxFrom _ 0 route.segments).map _ = _
      rw [map_mapIdxFrom]
      apply mapIdxFrom_eq_map
      intro i seg
      rfl
    · rw [recalc_eq_other route mode now hm hd]
      refine ⟨rfl, rfl, rfl, rfl, rfl, rfl, rfl, rfl, ?_, fun h => absurd h hm'⟩
      show (route.segments.map _).map _ = _
      rw [List.map_map]
      exact List.map_congr_left (fun seg _ => rfl)

/-- Witness for `recalculateRouteTimes_frame`: requesting the current mode of
the demo driving route returns it unchanged. -/
theorem recalculateRouteTimes_frame_witness :
    recalculateRouteTimes drivingDemoRoute .driving 7 = drivingDemoRoute :=
  (recalculateRouteTimes_frame drivingDemoRoute .driving 7).2.2.2.2.2.2.2.2.2 rfl

/-! ## C5: selection is a pure boolean flip -/

/-- C5: on a batch whose provider ranks are distinct, selecting a rank that is
present yields exactly one selected candidate; the ranks are unchanged, the
candidates themselves (everything except the `isSelected` bit) are unchanged
and unreordered, and the selected candidate is exactly the ranked one. -/
theorem selectByRank_spec (batch : List Route) (rank : Nat)
    (hmem : rank ∈ batch.map (·.alternativeIndex))
    (hnodup : (batch.map (·.alternativeIndex)).Nodup) :
    (selectByRank batch rank).countP (·.isSelected) = 1 ∧
    (selectByRank batch rank).map (·.alternativeIndex) = batch.map (·.alternativeIndex) ∧
    (selectByRank batch rank).map (fun r => { r with isSelected := false }) =
      batch.map (fun r => { r with isSelected := false }) ∧
    (∀ r ∈ selectByRank batch rank, (r.isSelected = true ↔ r.alternativeIndex = rank)) := by
  obtain ⟨r₀, hr₀, hidx₀⟩ := List.mem_map.mp hmem
  have hany : batch.any (fun r => r.alternativeIndex = rank) = true := by
    rw [List.any_eq_true]
    exact ⟨r₀, hr₀, by simp [hidx₀]⟩
  have hflip : selectByRank batch rank = batch.map (fun r =>
      if r.alternativeIndex = rank then { r with isSelected := true }
      else if r.isSelected then { r with isSelected := false }
      else r) := by
    simp [selectByRank, hany]
  have hpt : ∀ r : Route,
      ((if r.alternativeIndex = rank then { r with isSelected := true }
        else if r.isSelected then { r with isSelected := false }
        else r) : Route).isSelected = decide (r.alternativeIndex = rank) := by
    intro r
    by_cases h1 : r.alternativeIndex = rank
    · simp [h1]
    · by_cases h2 : r.isSelected <;> simp [h1, h2]
  refine ⟨?_, ?_, ?_, ?_⟩
  · rw [hflip, List.countP_map]
    have : List.countP
        ((fun r : Route => r.isSelected) ∘ (fun r =>
          if r.alternativeIndex = rank then { r with isSelected := true }
          else if r.isSelected then { r with isSelected := false }
          else r)) batch
        = List.countP (fun r : Route => r.alternativeIndex == rank) batch := by
      apply List.countP_congr
      intro r _
      simp [Function.comp, hpt r]
    rw [this]
    have hcount : List.count rank (batch.map (·.alternativeIndex)) = 1 :=
      List.count_eq_one_of_mem hnodup hmem
    rw [List.count, List.countP_map] at hcount
    convert hcount using 2
  · rw [hflip, List.map_map]
    apply List.map_congr_left
    intro r _
    by_cases h1 : r.alternativeIndex = rank
    · simp [h1]
    · by_cases h2 : r.isSelected <;> simp [h1, h2]
  · rw [hflip, List.map_map]
    apply List.map_congr_left
    intro r _
    by_cases h1 : r.alternativeIndex = rank
    · simp [h1]
    · by_cases h2 : r.isSelected <;> simp [h1, h2]
  · intro r hr
    rw [hflip] at hr
    obtain ⟨r', _, rfl⟩ := List.mem_map.mp hr
    constructor
    · intro hs
      by_cases h1 : r'.alternativeIndex = rank
      · simp [h1]
      · by_cases h2 : r'.isSelected <;> simp [h1, h2] at hs
    · intro hs
      by_cases h1 : r'.alternativeIndex = rank
      · simp [h1]
      · by_cases h2 : r'.isSelected <;> simp [h1, h2] at hs ⊢

/-- A primary demo route (rank 0, selected). -/
def routeA : Route :=
  { id := 1, distance := 1000, duration := 600, segments := [], geometry := [],
    travelMode := .driving, calculatedAt := 0, waypoints := [],
    osrmDuration := some 600, osrmSegmentDurations := some [],
    alternativeIndex := 0, isSelected := true }

/-- An alternative demo route (rank 1, unselected). -/
def routeB : Route :=
  { routeA with
      id := 2
      distance := 2000
      duration := 900
      alternativeIndex := 1
      isSelected := false }

/-- Witness for `selectByRank_spec`: selecting rank 1 in the two-candidate
batch `[routeA, routeB]`. -/
theorem selectByRank_spec_witness :
    (selectByRank [routeA, routeB] 1).countP (·.isSelected) = 1 ∧
    (selectByRank [routeA, routeB] 1).map (·.alternativeIndex) =
      [routeA, routeB].map (·.alternativeIndex) ∧
    (selectByRank [routeA, routeB] 1).map (fun r => { r with isSelected := false }) =
      [routeA, routeB].map (fun r => { r with isSelected := false }) ∧
    (∀ r ∈ selectByRank [routeA, routeB] 1,
      (r.isSelected = true ↔ r.alternativeIndex = 1)) :=
  selectByRank_spec [routeA, routeB] 1 (by simp [routeA, routeB])
    (by simp [routeA, routeB])

/-! ## C1: the waypoint-store ordering invariant fails -/

/-- C1 (failing behaviour): from the empty store, `setDestination` then
`setOrigin` produces the waypoint array `[destination, origin]` in which BOTH
waypoints carry `order = 0`: the destination is created with
`maxOrder + 1 = -1 + 1 = 0` on the empty store and the origin is then created
with its fixed `order = 0`, so the order values are not a contiguous `0..n-1`
permutation and the origin does not come first. -/
theorem waypoint_invariant_counterexample :
    ((setOrigin (setDestination initialState "B" (2, 2) none) "A" (1, 1) none).waypoints.map
        (fun w => (w.type, w.order)))
      = [(.destination, 0), (.origin, 0)] := by
  rfl

/-! ## C3: the driving round trip -/

theorem mem_stepDurations {osrm : OSRMRoute}
    (hS : ∀ leg ∈ osrm.legs, ∀ st ∈ leg.steps, st.duration ≠ 0) :
    ∀ d ∈ osrm.legs.flatMap (fun leg => leg.steps.map (·.duration)), d ≠ 0 := by
  intro d hd
  rw [List.mem_flatMap] at hd
  obtain ⟨leg, hleg, hd⟩ := hd
  rw [List.mem_map] at hd
  obtain ⟨st, hst, rfl⟩ := hd
  exact hS leg hleg st hst

theorem restore_durations (durs : List Rat) (hnz : ∀ d ∈ durs, d ≠ 0) :
    ∀ (segs : List RouteSegment) (n : Nat), durs.length = n + segs.length →
      (mapIdxFrom (fun index segment =>
          { segment with
              duration := jsOrRat (optIndex (some durs) index) segment.duration })
        n segs).map (·.duration) = durs.drop n := by
  intro segs
  induction segs with
  | nil =>
      intro n h
      simp only [mapIdxFrom, List.map_nil]
      exact (List.drop_eq_nil_of_le (by simp at h; omega)).symm
  | cons seg rest ih =>
      intro n h
      have hlen : durs.length = (n + 1) + rest.length := by simp at h; omega
      have hn : n < durs.length := by omega
      simp only [mapIdxFrom, List.map_cons]
      rw [List.drop_eq_getElem_cons hn]
      congr 1
      · show jsOrRat (optIndex (some durs) n) seg.duration = durs[n]
        have hget : durs[n]? = some durs[n] := List.getElem?_eq_getElem hn
        have hmem : durs[n] ∈ durs := List.getElem_mem hn
        simp [optIndex, hget, jsOrRat, hnz _ hmem]
      · exact ih (n + 1) hlen

/-- C3 (amended): for a route computed for `driving` whose provider-reported
route duration and step durations are all nonzero, switching to `cycling` with
`recalculateRouteTimes` and then switching back to `driving` restores the
route-level duration and every segment's duration to exactly the original
driving values; both switches are pure functions of the route (no network
interaction is even expressible). The nonzero proviso is forced by the `||`
fallback, which treats a snapshotted `0` as absent. -/
theorem recalculateRouteTimes_roundtrip (osrm : OSRMRoute) (ws : List Waypoint)
    (k id t0 t1 t2 : Nat)
    (hD : osrm.duration ≠ 0)
    (hS : ∀ leg ∈ osrm.legs, ∀ st ∈ leg.steps, st.duration ≠ 0) :
    (recalculateRouteTimes
        (recalculateRouteTimes (transformOSRMRoute osrm ws .driving k id t0) .cycling t1)
        .driving t2).duration
      = (transformOSRMRoute osrm ws .driving k id t0).duration ∧
    (recalculateRouteTimes
        (recalculateRouteTimes (transformOSRMRoute osrm ws .driving k id t0) .cycling t1)
        .driving t2).segments.map (·.duration)
      = (transformOSRMRoute osrm ws .driving k id t0).segments.map (·.duration) ∧
    (recalculateRouteTimes
        (recalculateRouteTimes (transformOSRMRoute osrm ws .driving k id t0) .cycling t1)
        .driving t2).travelMode = .driving := by
  have hmode0 : (transformOSRMRoute osrm ws .driving k id t0).travelMode = .driving := rfl
  have h1 := recalc_eq_other (transformOSRMRoute osrm ws .driving k id t0) .cycling t1
    (by rw [hmode0]; decide) (by decide)
  have hmode1 : (recalculateRouteTimes (transformOSRMRoute osrm ws .driving k id t0)
      .cycling t1).travelMode = .cycling := by rw [h1]
  have hosrmD : (recalculateRouteTimes (transformOSRMRoute osrm ws .driving k id t0)
      .cycling t1).osrmDuration = some osrm.duration := by rw [h1]; rfl
  have hosrmS : (recalculateRouteTimes (transformOSRMRoute osrm ws .driving k id t0)
      .cycling t1).osrmSegmentDurations
      = some (osrm.legs.flatMap (fun leg => leg.steps.map (·.duration))) := by rw [h1]; rfl
  have hflat : (transformOSRMRoute osrm ws .driving k id t0).segments.map (·.duration)
      = osrm.legs.flatMap (fun leg => leg.steps.map (·.duration)) := by
    show (mapIdxFrom (mkSegment .driving) 0 (osrm.legs.flatMap (·.steps))).map (·.duration) = _
    rw [map_mapIdxFrom]
    rw [mapIdxFrom_eq_map (fun i x => ((mkSegment .driving i x).duration))
      (fun st => st.duration) (fun i st => rfl) 0 (osrm.legs.flatMap (·.steps))]
    rw [List.map_flatMap]
  have hseglen : (recalculateRouteTimes (transformOSRMRoute osrm ws .driving k id t0)
      .cycling t1).segments.length
      = (transformOSRMRoute osrm ws .driving k id t0).segments.length := by
    rw [h1]
    simp
  have h2 := recalc_eq_driving
    (recalculateRouteTimes (transformOSRMRoute osrm ws .driving k id t0) .cycling t1) t2
    (by rw [hmode1]; decide)
  rw [h2]
  refine ⟨?_, ?_, rfl⟩
  · show jsOrRat (recalculateRouteTimes (transformOSRMRoute osrm ws .driving k id t0)
        .cycling t1).osrmDuration _ = _
    rw [hosrmD]
    have hdur0 : (transformOSRMRoute osrm ws .driving k id t0).duration = osrm.duration := rfl
    rw [hdur0]
    simp [jsOrRat, hD]
  · dsimp only
    rw [hosrmS]
    have hlen : (osrm.legs.flatMap (fun leg => leg.steps.map (·.duration))).length
        = 0 + (recalculateRouteTimes (transformOSRMRoute osrm ws .driving k id t0)
            .cycling t1).segments.length := by
      rw [hseglen, ← hflat]
      simp
    rw [restore_durations _ (mem_stepDurations hS) _ 0 hlen, List.drop_zero, hflat]

theorem tm_driving_ne_cycling : ¬ (TravelMode.driving = TravelMode.cycling) := by decide

theorem tm_cycling_ne_driving : ¬ (TravelMode.cycling = TravelMode.driving) := by decide

/-- An OSRM response whose single step has a zero duration but a positive
distance (route-level duration 300 s, 1000 m). -/
def zeroStepOSRM : OSRMRoute :=
  { distance := 1000, duration := 300,
    legs := [{ distance := 1000, duration := 0,
               steps := [{ distance := 1000, duration := 0, geometry := [],
                           name := "", maneuverType := "depart" }] }],
    geometry := [] }

/-- C3 (counterexample): on a driving route whose provider reported a step of
duration 0 over 1000 m, switching to cycling and back to driving yields a
step duration of 240 s (the cycling value), not the original 0 — the `||`
fallback used by the restore path ignores the snapshotted 0. -/
theorem recalculateRouteTimes_roundtrip_counterexample :
    ((transformOSRMRoute zeroStepOSRM [] .driving 0 0 0).segments.map (·.duration)
      = [0]) ∧
    ((recalculateRouteTimes
        (recalculateRouteTimes (transformOSRMRoute zeroStepOSRM [] .driving 0 0 0) .cycling 1)
        .driving 2).segments.map (·.duration)
      = [240]) ∧
    ((recalculateRouteTimes
        (recalculateRouteTimes (transformOSRMRoute zeroStepOSRM [] .driving 0 0 0) .cycling 1)
        .driving 2).segments.map (·.duration)
      ≠ (transformOSRMRoute zeroStepOSRM [] .driving 0 0 0).segments.map (·.duration)) := by
  have h240 : calculateDuration 1000 .cycling = 240 := by
    norm_num [calculateDuration, AVERAGE_SPEEDS, jsRound]
  refine ⟨rfl, ?_, ?_⟩
  · norm_num [zeroStepOSRM, transformOSRMRoute, mkSegment, calculateDuration,
      AVERAGE_SPEEDS, jsRound, recalculateRouteTimes, jsOrRat, optIndex,
      mapIdxFrom, convertCoordinates, buildInstruction,
      tm_driving_ne_cycling, tm_cycling_ne_driving]
  · intro h
    rw [show (transformOSRMRoute zeroStepOSRM [] .driving 0 0 0).segments.map (·.duration)
        = [0] from rfl] at h
    norm_num [zeroStepOSRM, transformOSRMRoute, mkSegment, calculateDuration,
      AVERAGE_SPEEDS, jsRound, recalculateRouteTimes, jsOrRat, optIndex,
      mapIdxFrom, convertCoordinates, buildInstruction,
      tm_driving_ne_cycling, tm_cycling_ne_driving] at h

/-- Witness for `recalculateRouteTimes_roundtrip`: a one-step drive of 90 s
over 1000 m round-trips exactly. -/
theorem recalculateRouteTimes_roundtrip_witness :
    (recalculateRouteTimes
        (recalculateRouteTimes
          (transformOSRMRoute
            { distance := 1000, duration := 90,
              legs := [{ distance := 1000, duration := 90,
                         steps := [{ distance := 1000, duration := 90, geometry := [],
                                     name := "", maneuverType := "depart" }] }],
              geometry := [] } [] .driving 0 0 0) .cycling 1)
        .driving 2).segments.map (·.duration)
      = (transformOSRMRoute
          { distance := 1000, duration := 90,
            legs := [{ distance := 1000, duration := 90,
                       steps := [{ distance := 1000, duration := 90, geometry := [],
                                   name := "", maneuverType := "depart" }] }],
            geometry := [] } [] .driving 0 0 0).segments.map (·.duration) :=
  (recalculateRouteTimes_roundtrip
    { distance := 1000, duration := 90,
      legs := [{ distance := 1000, duration := 90,
                 steps := [{ distance := 1000, duration := 90, geometry := [],
                             name := "", maneuverType := "depart" }] }],
      geometry := [] } [] 0 0 0 1 2 (by norm_num) (by
        intro leg hleg st hst
        simp at hleg
        subst hleg
        simp at hst
        subst hst
        norm_num)).2.1

/-! ## C6: the ranked route view -/

theorem foldl_min_spec : ∀ (xs : List Rat) (a : Rat),
    xs.foldl min a ≤ a ∧ (∀ x ∈ xs, xs.foldl min a ≤ x) := by
  intro xs
  induction xs with
  | nil =>
      intro a
      refine ⟨le_refl a, ?_⟩
      intro x hx
      simp at hx
  | cons x xs ih =>
      intro a
      have h := ih (min a x)
      have hfold : (x :: xs).foldl min a = xs.foldl min (min a x) := rfl
      refine ⟨?_, ?_⟩
      · rw [hfold]
        exact le_trans h.1 (min_le_left a x)
      · intro y hy
        rw [hfold]
        rcases List.mem_cons.mp hy with h_eq | hmem
        · subst h_eq
          exact le_trans h.1 (min_le_right a y)
        · exact h.2 y hmem

theorem foldl_min_mem : ∀ (xs : List Rat) (a : Rat),
    xs.foldl min a = a ∨ xs.foldl min a ∈ xs := by
  intro xs
  induction xs with
  | nil => intro a; exact Or.inl rfl
  | cons x xs ih =>
      intro a
      have hfold : (x :: xs).foldl min a = xs.foldl min (min a x) := rfl
      rcases ih (min a x) with h | h
      · rcases min_choice a x with hm | hm
        · exact Or.inl (by rw [hfold, h, hm])
        · refine Or.inr ?_
          rw [hfold, h, hm]
          exact List.mem_cons_self x xs
      · refine Or.inr ?_
        rw [hfold]
        exact List.mem_cons_of_mem x h

theorem listMinRat_le (xs : List Rat) : ∀ x ∈ xs, listMinRat xs ≤ x := by
  cases xs with
  | nil => intro x hx; simp at hx
  | cons a xs =>
      intro x hx
      rcases List.mem_cons.mp hx with h | h
      · subst h
        exact (foldl_min_spec xs x).1
      · exact (foldl_min_spec xs a).2 x h

theorem listMinRat_mem (xs : List Rat) (h : xs ≠ []) : listMinRat xs ∈ xs := by
  cases xs with
  | nil => exact absurd rfl h
  | cons a xs =>
      show xs.foldl min a ∈ a :: xs
      rcases foldl_min_mem xs a with h' | h'
      · rw [h']
        exact List.mem_cons_self a xs
      · exact List.mem_cons_of_mem a h'

theorem mapIdxFrom_entry_fst : ∀ (n : Nat) (alts : List Route),
    (mapIdxFrom (fun i r => ((r, (i : Int), true) : Route × Int × Bool)) n alts).map (·.1)
      = alts
  | _, [] => rfl
  | n, a :: as => by simp [mapIdxFrom, mapIdxFrom_entry_fst (n + 1) as]

theorem allRoutesEntries_fst (cur : Route) (alts : List Route) :
    (allRoutesEntries cur alts).map (·.1) = cur :: alts := by
  show ((cur, -1, false) ::
      mapIdxFrom (fun i r => ((r, (i : Int), true) : Route × Int × Bool)) 0 alts).map (·.1)
    = cur :: alts
  rw [List.map_cons, mapIdxFrom_entry_fst 0 alts]

theorem allRoutesEntries_dur (cur : Route) (alts : List Route) :
    (allRoutesEntries cur alts).map (·.1.duration) = (cur :: alts).map (·.duration) := by
  have h1 := congrArg (List.map (fun r : Route => r.duration)) (allRoutesEntries_fst cur alts)
  rw [List.map_map] at h1
  exact h1

theorem countP_eq_one_members_eq (p : α → Bool) :
    ∀ (l : List α), l.countP p = 1 →
      ∀ x ∈ l, p x = true → ∀ y ∈ l, p y = true → x = y := by
  intro l
  induction l with
  | nil => intro h; simp at h
  | cons a t ih =>
      intro h x hx hpx y hy hpy
      rw [List.countP_cons] at h
      by_cases hpa : p a = true
      · have ht : t.countP p = 0 := by rw [if_pos hpa] at h; omega
        have hnone : ∀ z ∈ t, ¬ p z = true := by
          intro z hz
          simpa using (List.countP_eq_zero.mp ht) z hz
        have hxa : x = a := by
          rcases List.mem_cons.mp hx with h' | h'
          · exact h'
          · exact absurd hpx (hnone x h')
        have hya : y = a := by
          rcases List.mem_cons.mp hy with h' | h'
          · exact h'
          · exact absurd hpy (hnone y h')
        rw [hxa, hya]
      · have ht : t.countP p = 1 := by rw [if_neg hpa] at h; omega
        have hx' : x ∈ t := by
          rcases List.mem_cons.mp hx with h' | h'
          · subst h'; exact absurd hpx hpa
          · exact h'
        have hy' : y ∈ t := by
          rcases List.mem_cons.mp hy with h' | h'
          · subst h'; exact absurd hpy hpa
          · exact h'
        exact ih ht x hx' hpx y hy' hpy

theorem find?_eq_some_of_unique (p : α → Bool) {x : α} :
    ∀ (l : List α), x ∈ l → p x = true → (∀ y ∈ l, p y = true → y = x) →
      l.find? p = some x := by
  intro l
  induction l with
  | nil => intro hx; simp at hx
  | cons a t ih =>
      intro hx hpx hun
      by_cases hpa : p a = true
      · rw [List.find?_cons_of_pos _ hpa]
        rw [hun a (List.mem_cons_self a t) hpa]
      · rw [List.find?_cons_of_neg _ (by simpa using hpa)]
        have hx' : x ∈ t := by
          rcases List.mem_cons.mp hx with h' | h'
          · subst h'; exact absurd hpx hpa
          · exact h'
        exact ih hx' hpx (fun y hy hpy => hun y (List.mem_cons_of_mem a hy) hpy)

/-- C6 (amended): for every non-empty batch, the `allRoutes` view holds the
same underlying candidates (a permutation of primary plus alternatives, with
every field — in particular the provider ranks — untouched), flags `isFastest`
on exactly the entries whose duration is the batch minimum (at least one; no
rank-based tie-breaking happens), is sorted ascending by duration, and
annotates every entry with its duration delta against the minimum and its
distance delta against the first minimum-duration candidate in batch order
(unconditionally, ties included); when the minimum is attained by exactly one
candidate, exactly one entry is flagged. -/
theorem allRoutes_spec (cur : Route) (alts : List Route) :
    ((allRoutes (some cur) alts).map (·.route)).Perm (cur :: alts) ∧
    (∀ e ∈ allRoutes (some cur) alts,
      (e.isFastest = true ↔ e.route.duration = listMinRat ((cur :: alts).map (·.duration)))) ∧
    (∃ e ∈ allRoutes (some cur) alts, e.isFastest = true) ∧
    List.Sorted viewLE (allRoutes (some cur) alts) ∧
    (∀ e ∈ allRoutes (some cur) alts,
      e.timeDiff = e.route.duration - listMinRat ((cur :: alts).map (·.duration))) ∧
    (∀ e ∈ allRoutes (some cur) alts,
      e.distanceDiff = e.route.distance
        - (((cur :: alts).find?
            (fun r => r.duration = listMinRat ((cur :: alts).map (·.duration)))).getD
              cur).distance) ∧
    (((cur :: alts).countP
        (fun r => r.duration = listMinRat ((cur :: alts).map (·.duration)))) = 1 →
      (allRoutes (some cur) alts).countP (·.isFastest) = 1) := by
  have hview : allRoutes (some cur) alts
      = List.insertionSort viewLE (allRoutesInfo cur alts) := rfl
  have hperm : (allRoutes (some cur) alts).Perm (allRoutesInfo cur alts) := by
    rw [hview]
    exact List.perm_insertionSort viewLE (allRoutesInfo cur alts)
  have hdur := allRoutesEntries_dur cur alts
  have hfastD : listMinRat ((allRoutesEntries cur alts).map (·.1.duration))
      = listMinRat ((cur :: alts).map (·.duration)) := by rw [hdur]
  have hinfo : allRoutesInfo cur alts = (allRoutesEntries cur alts).map (fun r =>
      { route := r.1
        index := r.2.1
        isAlternative := r.2.2
        isFastest := r.1.duration = listMinRat ((cur :: alts).map (·.duration))
        timeDiff := r.1.duration - listMinRat ((cur :: alts).map (·.duration))
        distanceDiff := r.1.distance
          - (findFastest (allRoutesEntries cur alts)
              (listMinRat ((cur :: alts).map (·.duration))) (cur, -1, false)).1.distance
        : RouteView }) := by
    simp only [allRoutesInfo]
    rw [hfastD]
  have hentry : ∀ e ∈ allRoutes (some cur) alts,
      ∃ r ∈ allRoutesEntries cur alts,
        ({ route := r.1
           index := r.2.1
           isAlternative := r.2.2
           isFastest := r.1.duration = listMinRat ((cur :: alts).map (·.duration))
           timeDiff := r.1.duration - listMinRat ((cur :: alts).map (·.duration))
           distanceDiff := r.1.distance
             - (findFastest (allRoutesEntries cur alts)
                 (listMinRat ((cur :: alts).map (·.duration))) (cur, -1, false)).1.distance
           : RouteView }) = e := by
    intro e he
    have he' : e ∈ allRoutesInfo cur alts := hperm.mem_iff.mp he
    rw [hinfo] at he'
    exact List.mem_map.mp he'
  have hentries_ne : (allRoutesEntries cur alts).map (·.1.duration) ≠ [] := by
    simp [allRoutesEntries]
  have hminmem := listMinRat_mem _ hentries_ne
  obtain ⟨r0, hr0, hr0d⟩ := List.mem_map.mp hminmem
  have hpr0 : decide (r0.1.duration = listMinRat ((cur :: alts).map (·.duration))) = true := by
    rw [decide_eq_true_eq, hr0d]
    exact hfastD
  have hzsome : ∃ z, (allRoutesEntries cur alts).find?
      (fun e => decide (e.1.duration = listMinRat ((cur :: alts).map (·.duration))))
        = some z := by
    cases hz : (allRoutesEntries cur alts).find?
        (fun e => decide (e.1.duration = listMinRat ((cur :: alts).map (·.duration)))) with
    | none => exact absurd hpr0 (List.find?_eq_none.mp hz r0 hr0)
    | some z => exact ⟨z, rfl⟩
  obtain ⟨z, hz⟩ := hzsome
  have hff : findFastest (allRoutesEntries cur alts)
      (listMinRat ((cur :: alts).map (·.duration))) (cur, -1, false) = z := by
    rw [findFastest, hz]
    rfl
  have hffgen : ∀ (M : Rat), ((cur :: alts).find? (fun r => decide (r.duration = M)))
      = ((allRoutesEntries cur alts).find?
          (fun e => decide (e.1.duration = M))).map (·.1) := by
    intro M
    conv_lhs => rw [← allRoutesEntries_fst cur alts]
    rw [List.find?_map]
    rfl
  have hfirst : (((cur :: alts).find?
      (fun r => r.duration = listMinRat ((cur :: alts).map (·.duration)))).getD cur)
        = z.1 := by
    rw [hffgen (listMinRat ((cur :: alts).map (·.duration))), hz]
    rfl
  have hc1 : (allRoutes (some cur) alts).countP (·.isFastest)
      = (allRoutesInfo cur alts).countP (·.isFastest) :=
    hperm.countP_eq (·.isFastest)
  have hc2 : (allRoutesInfo cur alts).countP (·.isFastest)
      = (allRoutesEntries cur alts).countP
          (fun r => r.1.duration = listMinRat ((cur :: alts).map (·.duration))) := by
    rw [hinfo, List.countP_map]
    rfl
  have hgen : ∀ (M : Rat), (allRoutesEntries cur alts).countP
        (fun r => decide (r.1.duration = M))
      = (cur :: alts).countP (fun r => decide (r.duration = M)) := by
    intro M
    conv_rhs => rw [← allRoutesEntries_fst cur alts]
    rw [List.countP_map]
    rfl
  have hc3 : (allRoutesEntries cur alts).countP
        (fun r => r.1.duration = listMinRat ((cur :: alts).map (·.duration)))
      = (cur :: alts).countP
          (fun r => r.duration = listMinRat ((cur :: alts).map (·.duration))) :=
    hgen (listMinRat ((cur :: alts).map (·.duration)))
  refine ⟨?_, ?_, ?_, ?_, ?_, ?_, ?_⟩
  · have h := hperm.map (·.route)
    have hmapfst : (allRoutesInfo cur alts).map (·.route) = cur :: alts := by
      rw [hinfo, List.map_map]
      exact allRoutesEntries_fst cur alts
    rw [hmapfst] at h
    exact h
  · intro e he
    obtain ⟨r, _, rfl⟩ := hentry e he
    simp
  · refine ⟨{ route := r0.1
              index := r0.2.1
              isAlternative := r0.2.2
              isFastest := r0.1.duration = listMinRat ((cur :: alts).map (·.duration))
              timeDiff := r0.1.duration - listMinRat ((cur :: alts).map (·.duration))
              distanceDiff := r0.1.distance
                - (findFastest (allRoutesEntries cur alts)
                    (listMinRat ((cur :: alts).map (·.duration))) (cur, -1, false)).1.distance
              : RouteView }, ?_, ?_⟩
    · apply hperm.mem_iff.mpr
      rw [hinfo]
      exact List.mem_map_of_mem _ hr0
    · exact hpr0
  · rw [hview]
    exact List.sorted_insertionSort viewLE (allRoutesInfo cur alts)
  · intro e he
    obtain ⟨r, _, rfl⟩ := hentry e he
    simp
  · intro e he
    obtain ⟨r, _, rfl⟩ := hentry e he
    show r.1.distance
        - (findFastest (allRoutesEntries cur alts)
            (listMinRat ((cur :: alts).map (·.duration))) (cur, -1, false)).1.distance
      = r.1.distance
        - (((cur :: alts).find?
            (fun r => r.duration = listMinRat ((cur :: alts).map (·.duration)))).getD
              cur).distance
    rw [hff, hfirst]
  · intro hcount
    rw [hc1, hc2, hc3]
    exact hcount

/-- A route with the same duration as `routeA` but a different identity and
rank — a duration tie. -/
def routeTie : Route :=
  { routeA with
      id := 3
      distance := 1500
      alternativeIndex := 1
      isSelected := false }

/-- C6 (counterexample): with a duration tie between the primary and the
alternative (600 s each), the view flags BOTH entries `isFastest = true` —
there is no tie-breaking by rank, so "exactly one `isFastest`" fails. -/
theorem allRoutes_tie_counterexample :
    ((allRoutes (some routeA) [routeTie]).countP (·.isFastest)) = 2 ∧
    ((allRoutes (some routeA) [routeTie]).countP (·.isFastest)) ≠ 1 := by
  have h : (allRoutes (some routeA) [routeTie]).countP (·.isFastest) = 2 := by
    norm_num [allRoutes, allRoutesInfo, allRoutesEntries, mapIdxFrom, listMinRat,
      findFastest, List.insertionSort, List.orderedInsert, viewLE, routeA, routeTie,
      List.countP, List.countP.go]
  exact ⟨h, by rw [h]; omega⟩

/-- Witness for `allRoutes_spec`: in the batch `[routeA, routeB]` (600 s and
900 s) the minimum 600 s is attained only by `routeA`, so exactly one view
entry is fastest, and all distance deltas are against the first
minimum-duration candidate. -/
theorem allRoutes_spec_witness :
    (allRoutes (some routeA) [routeB]).countP (·.isFastest) = 1 ∧
    (∀ e ∈ allRoutes (some routeA) [routeB],
      e.distanceDiff = e.route.distance
        - ((([routeA, routeB] : List Route).find?
            (fun r => r.duration = listMinRat (([routeA, routeB] : List Route).map (·.duration)))).getD
              routeA).distance) :=
  ⟨(allRoutes_spec routeA [routeB]).2.2.2.2.2.2
      (by norm_num [listMinRat, routeA, routeB, List.countP, List.countP.go]),
   (allRoutes_spec routeA [routeB]).2.2.2.2.2.1⟩

/-! ## C8: `swapOriginDestination` is an involution -/

/-- The pointwise effect of one `swapOriginDestination` on a waypoint array
holding origin `a` and destination `b`. -/
def swapMap (a b w : Waypoint) : Waypoint :=
  if w.id = a.id then { w with type := .destination, order := b.order }
  else if w.id = b.id then { w with type := .origin, order := a.order }
  else w

theorem swapMap_id (a b w : Waypoint) : (swapMap a b w).id = w.id := by
  unfold swapMap
  split
  · rfl
  · split <;> rfl

theorem updateWaypoint_eq_map (f : Waypoint → Waypoint) (k : Nat) :
    ∀ (ws : List Waypoint), (ws.map (·.id)).Nodup →
      updateWaypoint ws k f = ws.map (fun w => if w.id = k then f w else w) := by
  intro ws
  induction ws with
  | nil => intro _; rfl
  | cons x t ih =>
      intro hnodup
      rw [List.map_cons, List.nodup_cons] at hnodup
      show updateFirst (fun w => w.id = k) f (x :: t) = _
      rw [updateFirst]
      by_cases hx : x.id = k
      · rw [if_pos (by simpa using hx), List.map_cons, if_pos hx]
        congr 1
        have hne : ∀ w ∈ t, ¬ w.id = k := by
          intro w hw h
          exact hnodup.1 (by rw [hx, ← h]; exact List.mem_map_of_mem _ hw)
        symm
        calc t.map (fun w => if w.id = k then f w else w)
            = t.map (fun w => w) := List.map_congr_left (fun w hw => by rw [if_neg (hne w hw)])
          _ = t := List.map_id t
      · rw [if_neg (by simpa using hx), List.map_cons, if_neg hx]
        congr 1
        exact ih hnodup.2

theorem map_preserves_ids (g : Waypoint → Waypoint) (hg : ∀ w, (g w).id = w.id)
    (ws : List Waypoint) : ((ws.map g).map (·.id)) = ws.map (·.id) := by
  rw [List.map_map]
  exact List.map_congr_left (fun w _ => hg w)

theorem nodup_map_id_members_eq :
    ∀ (ws : List Waypoint), (ws.map (·.id)).Nodup →
      ∀ x ∈ ws, ∀ y ∈ ws, x.id = y.id → x = y := by
  intro ws
  induction ws with
  | nil => intro _ x hx; simp at hx
  | cons z t ih =>
      intro hnodup x hx y hy hxy
      rw [List.map_cons, List.nodup_cons] at hnodup
      rcases List.mem_cons.mp hx with hx' | hx'
      · rcases List.mem_cons.mp hy with hy' | hy'
        · rw [hx', hy']
        · subst hx'
          exact absurd (by rw [hxy]; exact List.mem_map_of_mem _ hy') hnodup.1
      · rcases List.mem_cons.mp hy with hy' | hy'
        · subst hy'
          exact absurd (by rw [← hxy]; exact List.mem_map_of_mem _ hx') hnodup.1
        · exact ih hnodup.2 x hx' y hy' hxy

theorem countP_le_one_members_eq (p : Waypoint → Bool) :
    ∀ (l : List Waypoint), l.countP p ≤ 1 →
      ∀ x ∈ l, p x = true → ∀ y ∈ l, p y = true → x = y := by
  intro l
  induction l with
  | nil => intro _ x hx; simp at hx
  | cons a t ih =>
      intro h x hx hpx y hy hpy
      rw [List.countP_cons] at h
      by_cases hpa : p a = true
      · have ht : t.countP p = 0 := by rw [if_pos hpa] at h; omega
        have hnone : ∀ z ∈ t, ¬ p z = true := by
          intro z hz
          simpa using (List.countP_eq_zero.mp ht) z hz
        have hxa : x = a := by
          rcases List.mem_cons.mp hx with h' | h'
          · exact h'
          · exact absurd hpx (hnone x h')
        have hya : y = a := by
          rcases List.mem_cons.mp hy with h' | h'
          · exact h'
          · exact absurd hpy (hnone y h')
        rw [hxa, hya]
      · have ht : t.countP p ≤ 1 := by rw [if_neg hpa] at h; omega
        have hx' : x ∈ t := by
          rcases List.mem_cons.mp hx with h' | h'
          · subst h'; exact absurd hpx hpa
          · exact h'
        have hy' : y ∈ t := by
          rcases List.mem_cons.mp hy with h' | h'
          · subst h'; exact absurd hpy hpa
          · exact h'
        exact ih ht x hx' hpx y hy' hpy

theorem swap_updates_eq_map (a b : Waypoint) (hab : a.id ≠ b.id)
    (ws : List Waypoint) (hnodup : (ws.map (·.id)).Nodup) :
    updateWaypoint
      (updateWaypoint
        (updateWaypoint
          (updateWaypoint ws a.id (fun w => { w with type := .destination }))
          b.id (fun w => { w with type := .origin }))
        a.id (fun w => { w with order := b.order }))
      b.id (fun w => { w with order := a.order })
    = ws.map (swapMap a b) := by
  have hid1 : ∀ w : Waypoint,
      ((fun w => if w.id = a.id then ({ w with type := WaypointType.destination }) else w) w).id
        = w.id := by
    intro w
    by_cases h : w.id = a.id <;> simp [h]
  have hid2 : ∀ w : Waypoint,
      ((fun w => if w.id = b.id then ({ w with type := WaypointType.origin }) else w) w).id
        = w.id := by
    intro w
    by_cases h : w.id = b.id <;> simp [h]
  have hid3 : ∀ w : Waypoint,
      ((fun w => if w.id = a.id then ({ w with order := b.order }) else w) w).id = w.id := by
    intro w
    by_cases h : w.id = a.id <;> simp [h]
  rw [updateWaypoint_eq_map (fun w => { w with type := WaypointType.destination }) a.id
    ws hnodup]
  rw [updateWaypoint_eq_map (fun w => { w with type := WaypointType.origin }) b.id _
    (by rw [map_preserves_ids _ hid1]; exact hnodup)]
  rw [updateWaypoint_eq_map (fun w => { w with order := b.order }) a.id _
    (by rw [map_preserves_ids _ hid2, map_preserves_ids _ hid1]; exact hnodup)]
  rw [updateWaypoint_eq_map (fun w => { w with order := a.order }) b.id _
    (by rw [map_preserves_ids _ hid3, map_preserves_ids _ hid2, map_preserves_ids _ hid1]
        exact hnodup)]
  rw [List.map_map, List.map_map, List.map_map]
  apply List.map_congr_left
  intro w _
  have hba : ¬ b.id = a.id := fun h => hab h.symm
  by_cases h1 : w.id = a.id
  · have h1' : ¬ w.id = b.id := by rw [h1]; exact hab
    simp [Function.comp, swapMap, h1, h1', hab]
  · by_cases h2 : w.id = b.id
    · simp [Function.comp, swapMap, h1, h2, hba]
    · simp [Function.comp, swapMap, h1, h2]

theorem swapOriginDestination_eq (s : RoutingState) (a b : Waypoint)
    (hfo : originWaypoint s = some a) (hfd : destinationWaypoint s = some b)
    (hnodup : (s.waypoints.map (·.id)).Nodup) (hab : a.id ≠ b.id) :
    swapOriginDestination s
      = { s with waypoints := sortWaypoints (s.waypoints.map (swapMap a b)) } := by
  simp only [swapOriginDestination, hfo, hfd]
  rw [swap_updates_eq_map a b hab s.waypoints hnodup]

/-- C8: `swapOriginDestination` is a no-op unless both an origin and a
destination waypoint exist; and (on states satisfying the store's own
invariants: distinct waypoint ids, at most one origin and at most one
destination) applying it twice returns a waypoint collection that is a
permutation of the original — every waypoint keeps its role, its order value
and all other fields. -/
theorem swapOriginDestination_spec (s : RoutingState)
    (hid : (s.waypoints.map (·.id)).Nodup)
    (ho : s.waypoints.countP (fun w => w.type = WaypointType.origin) ≤ 1)
    (hd : s.waypoints.countP (fun w => w.type = WaypointType.destination) ≤ 1) :
    ((originWaypoint s = none ∨ destinationWaypoint s = none) →
      swapOriginDestination s = s) ∧
    ((swapOriginDestination (swapOriginDestination s)).waypoints).Perm s.waypoints := by
  cases hfo : originWaypoint s with
  | none =>
      have hno : swapOriginDestination s = s := by
        simp [swapOriginDestination, hfo]
      constructor
      · intro _; exact hno
      · rw [hno, hno]
  | some a =>
      cases hfd : destinationWaypoint s with
      | none =>
          have hno : swapOriginDestination s = s := by
            simp [swapOriginDestination, hfo, hfd]
          constructor
          · intro _; exact hno
          · rw [hno, hno]
      | some b =>
          have ha_mem : a ∈ s.waypoints := List.mem_of_find?_eq_some hfo
          have hb_mem : b ∈ s.waypoints := List.mem_of_find?_eq_some hfd
          have ha_type : a.type = .origin := by
            have := List.find?_some hfo
            simpa using this
          have hb_type : b.type = .destination := by
            have := List.find?_some hfd
            simpa using this
          have hab_ne : a ≠ b := by
            intro h
            subst h
            rw [ha_type] at hb_type
            exact absurd hb_type (by decide)
          have haidbid : a.id ≠ b.id := by
            intro h
            exact hab_ne (nodup_map_id_members_eq s.waypoints hid a ha_mem b hb_mem h)
          have hbidaid : b.id ≠ a.id := fun h => haidbid h.symm
          have ho_uniq : ∀ w ∈ s.waypoints, w.type = .origin → w = a := by
            intro w hw hwt
            exact countP_le_one_members_eq _ _ ho w hw (by simp [hwt]) a ha_mem
              (by simp [ha_type])
          have hd_uniq : ∀ w ∈ s.waypoints, w.type = .destination → w = b := by
            intro w hw hwt
            exact countP_le_one_members_eq _ _ hd w hw (by simp [hwt]) b hb_mem
              (by simp [hb_type])
          -- first swap
          have hs1 := swapOriginDestination_eq s a b hfo hfd hid haidbid
          have hswap1 : (swapOriginDestination s).waypoints
              = sortWaypoints (s.waypoints.map (swapMap a b)) := by rw [hs1]
          have hperm1 : (swapOriginDestination s).waypoints.Perm
              (s.waypoints.map (swapMap a b)) := by
            rw [hswap1]
            exact List.perm_insertionSort wpLE (s.waypoints.map (swapMap a b))
          have hids1 : ((swapOriginDestination s).waypoints.map (·.id)).Nodup := by
            have hp := hperm1.map (fun w : Waypoint => w.id)
            rw [map_preserves_ids (swapMap a b) (swapMap_id a b)] at hp
            exact hp.nodup_iff.mpr hid
          -- the two swapped waypoints
          have hswa : swapMap a b a = { a with type := .destination, order := b.order } := by
            simp [swapMap]
          have hswb : swapMap a b b = { b with type := .origin, order := a.order } := by
            simp [swapMap, hbidaid]
          -- finds on the swapped state
          have hfo2 : originWaypoint (swapOriginDestination s)
              = some { b with type := WaypointType.origin, order := a.order } := by
            apply find?_eq_some_of_unique
            · apply hperm1.mem_iff.mpr
              rw [← hswb]
              exact List.mem_map_of_mem _ hb_mem
            · simp
            · intro y hy hpy
              have hy' : y ∈ s.waypoints.map (swapMap a b) := hperm1.mem_iff.mp hy
              obtain ⟨w, hw, rfl⟩ := List.mem_map.mp hy'
              by_cases h1 : w.id = a.id
              · have hwa : w = a := nodup_map_id_members_eq s.waypoints hid w hw a ha_mem h1
                subst hwa
                rw [hswa] at hpy
                simp at hpy
              · by_cases h2 : w.id = b.id
                · have hwb : w = b := nodup_map_id_members_eq s.waypoints hid w hw b hb_mem h2
                  subst hwb
                  exact hswb
                · have hyw : swapMap a b w = w := by simp [swapMap, h1, h2]
                  rw [hyw] at hpy ⊢
                  have hwo : w.type = .origin := by simpa using hpy
                  exact absurd (ho_uniq w hw hwo) (fun h => h1 (by rw [h]))
          have hfd2 : destinationWaypoint (swapOriginDestination s)
              = some { a with type := WaypointType.destination, order := b.order } := by
            apply find?_eq_some_of_unique
            · apply hperm1.mem_iff.mpr
              rw [← hswa]
              exact List.mem_map_of_mem _ ha_mem
            · simp
            · intro y hy hpy
              have hy' : y ∈ s.waypoints.map (swapMap a b) := hperm1.mem_iff.mp hy
              obtain ⟨w, hw, rfl⟩ := List.mem_map.mp hy'
              by_cases h1 : w.id = a.id
              · have hwa : w = a := nodup_map_id_members_eq s.waypoints hid w hw a ha_mem h1
                subst hwa
                exact hswa
              · by_cases h2 : w.id = b.id
                · have hwb : w = b := nodup_map_id_members_eq s.waypoints hid w hw b hb_mem h2
                  subst hwb
                  rw [hswb] at hpy
                  simp at hpy
                · have hyw : swapMap a b w = w := by simp [swapMap, h1, h2]
                  rw [hyw] at hpy ⊢
                  have hwd : w.type = .destination := by simpa using hpy
                  exact absurd (hd_uniq w hw hwd) (fun h => h2 (by rw [h]))
          -- second swap
          have hs2 := swapOriginDestination_eq (swapOriginDestination s)
            { b with type := WaypointType.origin, order := a.order }
            { a with type := WaypointType.destination, order := b.order }
            hfo2 hfd2 hids1 (by simpa using hbidaid)
          have hswap2 : (swapOriginDestination (swapOriginDestination s)).waypoints
              = sortWaypoints ((swapOriginDestination s).waypoints.map
                  (swapMap { b with type := WaypointType.origin, order := a.order }
                    { a with type := WaypointType.destination, order := b.order })) := by
            rw [hs2]
          have hcomp : ∀ w ∈ s.waypoints,
              swapMap { b with type := WaypointType.origin, order := a.order }
                { a with type := WaypointType.destination, order := b.order }
                (swapMap a b w) = w := by
            intro w hw
            by_cases h1 : w.id = a.id
            · have hwa : w = a := nodup_map_id_members_eq s.waypoints hid w hw a ha_mem h1
              rw [hwa, hswa]
              simp [swapMap, haidbid]
              rw [← ha_type]
            · by_cases h2 : w.id = b.id
              · have hwb : w = b := nodup_map_id_members_eq s.waypoints hid w hw b hb_mem h2
                rw [hwb, hswb]
                simp [swapMap]
                rw [← hb_type]
              · have hyw : swapMap a b w = w := by simp [swapMap, h1, h2]
                rw [hyw]
                simp [swapMap, h1, h2]
          have hmapeq : (s.waypoints.map (swapMap a b)).map
              (swapMap { b with type := WaypointType.origin, order := a.order }
                { a with type := WaypointType.destination, order := b.order })
              = s.waypoints := by
            rw [List.map_map]
            have h2 : s.waypoints.map
                ((swapMap { b with type := WaypointType.origin, order := a.order }
                  { a with type := WaypointType.destination, order := b.order })
                  ∘ (swapMap a b))
                = s.waypoints.map id :=
              List.map_congr_left (fun w hw => hcomp w hw)
            rw [h2, List.map_id]
          refine ⟨fun h => ?_, ?_⟩
          · rcases h with h | h
            · exact Option.noConfusion h
            · exact Option.noConfusion h
          · rw [hswap2]
            refine (List.perm_insertionSort wpLE _).trans ?_
            refine (hperm1.map _).trans ?_
            rw [hmapeq]

/-- Witness for `swapOriginDestination_spec` at the concrete two-waypoint
store. -/
theorem swapOriginDestination_spec_witness :
    ((originWaypoint twoWaypointState = none ∨
        destinationWaypoint twoWaypointState = none) →
      swapOriginDestination twoWaypointState = twoWaypointState) ∧
    ((swapOriginDestination (swapOriginDestination twoWaypointState)).waypoints).Perm
      twoWaypointState.waypoints :=
  swapOriginDestination_spec twoWaypointState (by decide) (by decide) (by decide)

end VuefletMap
